import Mathlib

/-!
Verification development for QtSpell (spell checking for Qt text widgets).

The repository ships the public header `src/QtSpell.hpp`; the method bodies
live in implementation files that are not part of the source tree here, so
the behavioural definitions below are modelled from the specification
document, while member-variable defaults are taken directly from the
in-class initializers of `QtSpell.hpp`.

Strings of the C++ code (QString) are embedded as lists of characters.
-/

namespace QtSpell

/-- A QString is embedded as a list of characters. -/
abbrev QString := List Char

/-- Modelled from the spec: the dictionary engine environment (the enchant
broker), which is missing from the sources.  It knows which language
dictionaries are installed, the system locale, the word list of each
installed dictionary, and the suggestion generator of the engine. -/
structure Broker where
  installed : List QString
  systemLocale : QString
  dictOf : QString → List QString
  suggestOf : QString → QString → List QString

/-- The member variables of `QtSpell::Checker`.  The default values are the
in-class initializers of `QtSpell.hpp` (lines 193-198):
`m_speller = nullptr`, `m_lang` default-constructed (empty),
`m_decodeCodes = false`, `m_spellingCheckbox = false`,
`m_spellingEnabled = true`.  The open dictionary handle is embedded as the
word list it gives access to; `ignored` is the session-ignore list the
enchant session keeps for the open dictionary. -/
structure Checker where
  m_speller : Option (List QString) := none
  m_lang : QString := []
  m_decodeCodes : Bool := false
  m_spellingCheckbox : Bool := false
  m_spellingEnabled : Bool := true
  ignored : List QString := []

/-- Modelled from the spec: the language a `setLanguage` request resolves
to — the requested locale, or the system locale when the request is the
empty string ("empty string means use system locale"). -/
def resolveLang (b : Broker) (lang : QString) : QString :=
  if lang.isEmpty then b.systemLocale else lang

/-- Modelled from the spec: `Checker::setLanguage` (body missing from the
sources).  It "attempts to open a dictionary for lang, falling back to
failure (returns false, leaves prior state) if unavailable"; on success the
checker owns a dictionary handle for the resolved language and a fresh
enchant session. -/
def setLanguage (b : Broker) (c : Checker) (lang : QString) : Bool × Checker :=
  let resolved := resolveLang b lang
  if resolved ∈ b.installed then
    (true, { c with m_lang := resolved,
                    m_speller := some (b.dictOf resolved),
                    ignored := [] })
  else
    (false, c)

/-- `Checker::getLanguage`: returns the current spelling language. -/
def getLanguage (c : Checker) : QString :=
  c.m_lang

/-- `Checker::getSpellingEnabled`: returns `m_spellingEnabled`. -/
def getSpellingEnabled (c : Checker) : Bool :=
  c.m_spellingEnabled

/-- `Checker::getDecodeLanguageCodes`: returns `m_decodeCodes`. -/
def getDecodeLanguageCodes (c : Checker) : Bool :=
  c.m_decodeCodes

/-- `Checker::getShowCheckSpellingCheckbox`: returns `m_spellingCheckbox`. -/
def getShowCheckSpellingCheckbox (c : Checker) : Bool :=
  c.m_spellingCheckbox

/-- Modelled from the spec: `Checker::checkWord` (body missing from the
sources).  Empty (malformed) input is "treated as trivially correct"; with
the dictionary engine unavailable entirely, "spelling checks are no-ops";
otherwise the word is correct when the open dictionary contains it or the
session ignores it. -/
def checkWord (c : Checker) (word : QString) : Bool :=
  if word.isEmpty then true
  else
    match c.m_speller with
    | none => true
    | some d => decide (word ∈ d) || decide (word ∈ c.ignored)

/-- Modelled from the spec: `Checker::ignoreWord` (body missing from the
sources).  "Ignore a word for the current session": the word joins the
session-ignore list of the open dictionary. -/
def ignoreWord (c : Checker) (word : QString) : Checker :=
  { c with ignored := word :: c.ignored }

/-- Modelled from the spec: `Checker::getSpellingSuggestions` (body missing
from the sources).  Empty (malformed) input yields "no suggestions"; with no
open dictionary there is nothing to suggest; otherwise the engine generates
the candidate corrections. -/
def getSpellingSuggestions (b : Broker) (c : Checker) (word : QString) :
    List QString :=
  if word.isEmpty then []
  else
    match c.m_speller with
    | none => []
    | some _ => b.suggestOf c.m_lang word

/-- Modelled from the spec: starting a new session.  Session state (the
ignore list) is discarded; persistent state (language, dictionary contents,
UI flags) survives. -/
def newSession (c : Checker) : Checker :=
  { c with ignored := [] }

/-- The member variables of `QtSpell::TextEditChecker` relevant to the
claims; `m_noSpellingProperty = -1` is the in-class initializer of
`QtSpell.hpp` (line 346). -/
structure TextEditChecker where
  m_noSpellingProperty : Int := -1

/-- `TextEditChecker::noSpellingPropertyId`: returns the current no-spelling
QTextCharFormat property identifier. -/
def noSpellingPropertyId (t : TextEditChecker) : Int :=
  t.m_noSpellingProperty

/-- Modelled from the spec: an undo/redo entry, a
"(position, removed-text, added-text)" edit operation observed on the
widget text (the implementation of `UndoRedoStack` is missing from the
sources). -/
structure EditOp where
  pos : Nat
  removed : QString
  added : QString
  deriving DecidableEq

/-- Applying an edit operation to the widget text: at `pos`, the removed
text is replaced by the added text. -/
def applyOp (op : EditOp) (t : QString) : QString :=
  t.take op.pos ++ op.added ++ t.drop (op.pos + op.removed.length)

/-- The inverse of an edit operation: removed and added text swap roles. -/
def invert (op : EditOp) : EditOp :=
  ⟨op.pos, op.added, op.removed⟩

/-- The state of a `TextEditChecker` together with its attached widget:
the widget text, the two histories of the `UndoRedoStack`, and the
`m_undoRedoInProgress` flag (`QtSpell.hpp` line 344). -/
structure EditorState where
  text : QString
  undoStack : List EditOp
  redoStack : List EditOp
  inProgress : Bool
  deriving DecidableEq

/-- An availability notification: `TextEditChecker::undoAvailable` or
`TextEditChecker::redoAvailable`, carrying whether steps are available. -/
inductive Notification where
  | undoAvailable (available : Bool)
  | redoAvailable (available : Bool)
  deriving DecidableEq

/-- Modelled from the spec: the handler of the widget text-changed
notification feeding the `UndoRedoStack`.  "Each text insertion or removal
observed on the widget is appended to the undo history and the redo history
is cleared, unless the change originates from an undo/redo replay itself
(tracked via an in-progress flag to avoid re-recording replayed edits)."
Recording emits `undoAvailable true` when the undo history becomes
non-empty and `redoAvailable false` when a non-empty redo history is
cleared. -/
def handleContentsChange (op : EditOp) (st : EditorState) :
    EditorState × List Notification :=
  if st.inProgress then
    ({ st with text := applyOp op st.text }, [])
  else
    ({ text := applyOp op st.text,
       undoStack := op :: st.undoStack,
       redoStack := [],
       inProgress := false },
      (if st.undoStack.isEmpty then [Notification.undoAvailable true] else [])
        ++ (if st.redoStack.isEmpty then []
            else [Notification.redoAvailable false]))

/-- Modelled from the spec: `TextEditChecker::undo` (body missing from the
sources).  It "pops the most recent entry, applies its inverse to the
widget, and pushes it to redo history"; the replayed widget edit is routed
through the text-changed handler with the in-progress flag raised.  It
emits `undoAvailable false` when the undo history becomes empty and
`redoAvailable true` when the redo history becomes non-empty. -/
def undoS (st : EditorState) : EditorState × List Notification :=
  match st.undoStack with
  | [] => (st, [])
  | op :: rest =>
    let replayed := (handleContentsChange (invert op)
      { st with inProgress := true }).1
    ({ replayed with undoStack := rest,
                     redoStack := op :: st.redoStack,
                     inProgress := st.inProgress },
      (if rest.isEmpty then [Notification.undoAvailable false] else [])
        ++ (if st.redoStack.isEmpty then [Notification.redoAvailable true]
            else []))

/-- Modelled from the spec: `TextEditChecker::redo` (body missing from the
sources); "redo() is symmetric" to undo: it pops the most recent redo
entry, applies it to the widget (through the handler, with the in-progress
flag raised) and pushes it to the undo history. -/
def redoS (st : EditorState) : EditorState × List Notification :=
  match st.redoStack with
  | [] => (st, [])
  | op :: rest =>
    let replayed := (handleContentsChange op { st with inProgress := true }).1
    ({ replayed with undoStack := op :: st.undoStack,
                     redoStack := rest,
                     inProgress := st.inProgress },
      (if st.undoStack.isEmpty then [Notification.undoAvailable true]
       else [])
        ++ (if rest.isEmpty then [Notification.redoAvailable false]
            else []))

/-- Modelled from the spec: `TextEditChecker::clearUndoRedo` (body missing
from the sources): both histories are cleared, with availability
notifications for each history that becomes empty. -/
def clearUndoRedo (st : EditorState) : EditorState × List Notification :=
  ({ st with undoStack := [], redoStack := [] },
    (if st.undoStack.isEmpty then [] else [Notification.undoAvailable false])
      ++ (if st.redoStack.isEmpty then []
          else [Notification.redoAvailable false]))

/-- `TextEditChecker::undo`, state part. -/
def undo (st : EditorState) : EditorState :=
  (undoS st).1

/-- `TextEditChecker::redo`, state part. -/
def redo (st : EditorState) : EditorState :=
  (redoS st).1

/-- The notifications the spec demands of an operation taking `before` to
`after`: one per history whose emptiness transitions, carrying whether
steps are available after the transition. -/
def transitionNotifications (before after : EditorState) :
    List Notification :=
  (if before.undoStack.isEmpty = after.undoStack.isEmpty then []
   else [Notification.undoAvailable (!after.undoStack.isEmpty)])
    ++ (if before.redoStack.isEmpty = after.redoStack.isEmpty then []
        else [Notification.redoAvailable (!after.redoStack.isEmpty)])

/-- A character belonging to a word; locale-aware word boundaries are
embedded as alphabetic versus non-alphabetic characters. -/
def isWordChar (c : Char) : Bool :=
  c.isAlpha

/-- Helper for `wordSpans`: scans the remaining text at offset `i`,
carrying the start of the word run in progress, and returns the maximal
word runs as (start, end) spans with exclusive end. -/
def wordSpansAux : List Char → Nat → Option Nat → List (Nat × Nat)
  | [], _, none => []
  | [], i, some s => [(s, i)]
  | c :: cs, i, none =>
    if isWordChar c then wordSpansAux cs (i + 1) (some i)
    else wordSpansAux cs (i + 1) none
  | c :: cs, i, some s =>
    if isWordChar c then wordSpansAux cs (i + 1) (some s)
    else (s, i) :: wordSpansAux cs (i + 1) none

/-- The word spans of the widget text. -/
def wordSpans (t : QString) : List (Nat × Nat) :=
  wordSpansAux t 0 none

/-- The substring of the text covered by a span. -/
def wordAt (t : QString) (s : Nat × Nat) : QString :=
  (t.drop s.1).take (s.2 - s.1)

/-- The word spans of the text whose word the active dictionary rejects:
the spans that deserve a spelling decoration. -/
def misspelledSpans (c : Checker) (t : QString) : List (Nat × Nat) :=
  (wordSpans t).filter (fun s => ! checkWord c (wordAt t s))

/-- Whether the span `s` touches the character region from `a` to `b`. -/
def intersects (s : Nat × Nat) (a b : Nat) : Bool :=
  decide (s.1 ≤ b) && decide (a ≤ s.2)

/-- Modelled from the spec: `TextEditChecker::checkSpelling` (body missing
from the sources).  It scans the requested range and applies or clears the
misspelling decorations there: decorations of spans touching the region are
recomputed from the current text and dictionary, decorations outside the
region are kept as they are.  `decos` is the current set of decorated
spans. -/
def checkSpelling (c : Checker) (t : QString) (decos : List (Nat × Nat))
    (a b : Nat) : List (Nat × Nat) :=
  decos.filter (fun s => ! intersects s a b)
    ++ (misspelledSpans c t).filter (fun s => intersects s a b)

/-- Modelled from the spec: `TextEditChecker::slotCheckRange` (body missing
from the sources), the handler of the text-changed notification reporting
an edit at `pos` with `removed` and `added` character counts.  It re-checks
"only the affected region (incremental re-check bounded by the edited
span)", the span from `pos` to `pos + added`; like its source, it receives
but does not consult the removed-character count. -/
def slotCheckRange (c : Checker) (t : QString) (decos : List (Nat × Nat))
    (pos removed added : Nat) : List (Nat × Nat) :=
  checkSpelling c t decos pos (pos + added)

end QtSpell

namespace QtSpell

/-- C1: for every language string whose dictionary is not installed,
`setLanguage` returns false and the checker state — in particular the value
`getLanguage` reports — is unchanged. -/
theorem setLanguage_uninstalled_fails (b : Broker) (c : Checker)
    (lang : QString) (h : resolveLang b lang ∉ b.installed) :
    (setLanguage b c lang).1 = false ∧
    (setLanguage b c lang).2 = c ∧
    getLanguage (setLanguage b c lang).2 = getLanguage c := by
  simp [setLanguage, h]

/-- Witness for C1: a concrete broker with only an "en" dictionary rejects
the locale "xx" and keeps the prior language. -/
theorem setLanguage_uninstalled_fails_witness :
    (resolveLang ⟨[['e', 'n']], ['e', 'n'], fun _ => [], fun _ _ => []⟩
        (['x', 'x']) ∉
      Broker.installed ⟨[['e', 'n']], ['e', 'n'], fun _ => [], fun _ _ => []⟩) ∧
    ((setLanguage ⟨[['e', 'n']], ['e', 'n'], fun _ => [], fun _ _ => []⟩
        { m_lang := ['e', 'n'] } (['x', 'x'])).1 = false ∧
      (setLanguage ⟨[['e', 'n']], ['e', 'n'], fun _ => [], fun _ _ => []⟩
        { m_lang := ['e', 'n'] } (['x', 'x'])).2 = { m_lang := ['e', 'n'] } ∧
      getLanguage (setLanguage ⟨[['e', 'n']], ['e', 'n'], fun _ => [],
          fun _ _ => []⟩ { m_lang := ['e', 'n'] } (['x', 'x'])).2 =
        getLanguage { m_lang := ['e', 'n'] }) :=
  ⟨by decide,
    setLanguage_uninstalled_fails _ _ _ (by decide)⟩

/-- C3: with a fixed active dictionary and a fresh session, `checkWord`
returns true exactly for the words present in the dictionary. -/
theorem checkWord_iff_mem_dict (c : Checker) (d : List QString) (w : QString)
    (hs : c.m_speller = some d) (hi : c.ignored = []) (hw : ¬ w.isEmpty) :
    checkWord c w = true ↔ w ∈ d := by
  simp [checkWord, hs, hi, hw]

/-- Witness for C3: a dictionary holding just "hello" accepts "hello". -/
theorem checkWord_iff_mem_dict_witness :
    (Checker.m_speller
        { m_speller := some [['h', 'e', 'l', 'l', 'o']] } =
      some [['h', 'e', 'l', 'l', 'o']]) ∧
    (Checker.ignored { m_speller := some [['h', 'e', 'l', 'l', 'o']] } = []) ∧
    ¬ (List.isEmpty ['h', 'e', 'l', 'l', 'o']) ∧
    (checkWord { m_speller := some [['h', 'e', 'l', 'l', 'o']] }
        (['h', 'e', 'l', 'l', 'o']) = true ↔
      ['h', 'e', 'l', 'l', 'o'] ∈ [['h', 'e', 'l', 'l', 'o']]) :=
  ⟨rfl, rfl, by decide,
    checkWord_iff_mem_dict _ _ _ rfl rfl (by decide)⟩

/-- C4: for empty (malformed) word input, `checkWord` treats the word as
trivially correct and `getSpellingSuggestions` returns no suggestions. -/
theorem empty_word_trivially_correct (b : Broker) (c : Checker) (w : QString)
    (hw : w.isEmpty) :
    checkWord c w = true ∧ getSpellingSuggestions b c w = [] := by
  simp [checkWord, getSpellingSuggestions, hw]

/-- Witness for C4: the empty word is accepted and yields no suggestions. -/
theorem empty_word_trivially_correct_witness :
    (List.isEmpty ([] : QString)) ∧
    (checkWord { m_speller := some [['h', 'i']] } [] = true ∧
      getSpellingSuggestions ⟨[], [], fun _ => [], fun _ _ => []⟩
        { m_speller := some [['h', 'i']] } [] = []) :=
  ⟨by decide, empty_word_trivially_correct _ _ _ (by decide)⟩

/-- C5: after `ignoreWord w`, every subsequent `checkWord w` in the same
session returns true, and the effect does not persist into a new session:
there, `checkWord w` answers exactly as it would had the word never been
ignored. -/
theorem ignoreWord_session_only (c : Checker) (w : QString) :
    checkWord (ignoreWord c w) w = true ∧
    checkWord (newSession (ignoreWord c w)) w = checkWord (newSession c) w := by
  constructor
  · cases hw : w.isEmpty with
    | true => simp [checkWord, hw]
    | false =>
      cases hs : c.m_speller with
      | none => simp [checkWord, ignoreWord, hw, hs]
      | some d => simp [checkWord, ignoreWord, hw, hs]
  · rfl

/-- Applying the inverse of an insertion right after the insertion restores
the original text, provided the insertion position lies within the text. -/
theorem applyOp_insert_invert (pos : Nat) (s t : QString)
    (h : pos ≤ t.length) :
    applyOp (invert ⟨pos, [], s⟩) (applyOp ⟨pos, [], s⟩ t) = t := by
  have hlen : (t.take pos).length = pos := by
    simp [Nat.min_eq_left h]
  have h1 : ((t.take pos ++ s) ++ t.drop pos).take pos = t.take pos := by
    rw [List.append_assoc]
    exact List.take_left' hlen
  have h2 : ((t.take pos ++ s) ++ t.drop pos).drop (pos + s.length) =
      t.drop pos :=
    List.drop_left' (by simp [hlen])
  simp only [applyOp, invert, List.length_nil, Nat.add_zero, List.append_nil,
    List.nil_append]
  rw [h2, h1, List.take_append_drop]

/-- C2: recording a single insertion and then calling `undo` restores the
pre-insertion widget text exactly, and calling `redo` immediately afterwards
restores the post-insertion text exactly. -/
theorem undo_redo_single_insertion (st : EditorState) (pos : Nat)
    (s : QString) (hp : st.inProgress = false)
    (hpos : pos ≤ st.text.length) :
    (undo (handleContentsChange ⟨pos, [], s⟩ st).1).text = st.text ∧
    (redo (undo (handleContentsChange ⟨pos, [], s⟩ st).1)).text =
      (handleContentsChange ⟨pos, [], s⟩ st).1.text := by
  have hrt := applyOp_insert_invert pos s st.text hpos
  obtain ⟨t, u, r, p⟩ := st
  subst hp
  constructor
  · simp only [handleContentsChange, undo, undoS]
    simp [hrt]
  · simp only [handleContentsChange, undo, undoS, redo, redoS]
    simp [hrt]

/-- Witness for C2: inserting "x" at position 1 of "ab", undo restores "ab"
and redo restores "axb". -/
theorem undo_redo_single_insertion_witness :
    (EditorState.inProgress ⟨['a', 'b'], [], [], false⟩ = false) ∧
    (1 ≤ (EditorState.text ⟨['a', 'b'], [], [], false⟩).length) ∧
    ((undo (handleContentsChange ⟨1, [], ['x']⟩
        ⟨['a', 'b'], [], [], false⟩).1).text =
      EditorState.text ⟨['a', 'b'], [], [], false⟩ ∧
    (redo (undo (handleContentsChange ⟨1, [], ['x']⟩
        ⟨['a', 'b'], [], [], false⟩).1)).text =
      (handleContentsChange ⟨1, [], ['x']⟩
        ⟨['a', 'b'], [], [], false⟩).1.text) :=
  ⟨rfl, by decide,
    undo_redo_single_insertion ⟨['a', 'b'], [], [], false⟩ 1 ['x']
      rfl (by decide)⟩

/-- C6: a new widget edit performed after an undo clears the redo history,
so a subsequent `redo` is a no-op. -/
theorem edit_after_undo_clears_redo (st : EditorState) (op : EditOp)
    (hp : st.inProgress = false) :
    (handleContentsChange op (undo st)).1.redoStack = [] ∧
    redo (handleContentsChange op (undo st)).1 =
      (handleContentsChange op (undo st)).1 := by
  have hprog : (undo st).inProgress = false := by
    obtain ⟨t, u, r, p⟩ := st
    subst hp
    cases u <;> simp [undo, undoS]
  constructor
  · simp [handleContentsChange, hprog]
  · simp [handleContentsChange, hprog, redo, redoS]

/-- Witness for C6: after undoing an insertion of "a" and typing "b", the
redo history is empty and `redo` leaves the state untouched. -/
theorem edit_after_undo_clears_redo_witness :
    (EditorState.inProgress ⟨['a'], [⟨0, [], ['a']⟩], [], false⟩ = false) ∧
    ((handleContentsChange ⟨0, [], ['b']⟩
        (undo ⟨['a'], [⟨0, [], ['a']⟩], [], false⟩)).1.redoStack = [] ∧
      redo (handleContentsChange ⟨0, [], ['b']⟩
          (undo ⟨['a'], [⟨0, [], ['a']⟩], [], false⟩)).1 =
        (handleContentsChange ⟨0, [], ['b']⟩
          (undo ⟨['a'], [⟨0, [], ['a']⟩], [], false⟩)).1) :=
  ⟨rfl,
    edit_after_undo_clears_redo ⟨['a'], [⟨0, [], ['a']⟩], [], false⟩
      ⟨0, [], ['b']⟩ rfl⟩

/-- C7: a text change arriving while the in-progress flag is raised — as
the replayed edits of `undo` and `redo` are — only updates the widget text:
it is never recorded in the undo history, does not clear the redo history,
and emits no notification. -/
theorem replay_not_recorded (st : EditorState) (op : EditOp)
    (hp : st.inProgress = true) :
    (handleContentsChange op st).1 =
      { st with text := applyOp op st.text } ∧
    (handleContentsChange op st).1.undoStack = st.undoStack ∧
    (handleContentsChange op st).1.redoStack = st.redoStack ∧
    (handleContentsChange op st).2 = [] := by
  refine ⟨?_, ?_, ?_, ?_⟩ <;> simp [handleContentsChange, hp]

/-- Witness for C7: a replayed change with the flag raised leaves both
histories and the notification list empty. -/
theorem replay_not_recorded_witness :
    (EditorState.inProgress ⟨['a'], [⟨0, [], ['a']⟩], [], true⟩ = true) ∧
    ((handleContentsChange ⟨1, [], ['b']⟩
        ⟨['a'], [⟨0, [], ['a']⟩], [], true⟩).1 =
      { EditorState.mk ['a'] [⟨0, [], ['a']⟩] [] true with
          text := applyOp ⟨1, [], ['b']⟩ ['a'] } ∧
    (handleContentsChange ⟨1, [], ['b']⟩
        ⟨['a'], [⟨0, [], ['a']⟩], [], true⟩).1.undoStack =
      [⟨0, [], ['a']⟩] ∧
    (handleContentsChange ⟨1, [], ['b']⟩
        ⟨['a'], [⟨0, [], ['a']⟩], [], true⟩).1.redoStack = [] ∧
    (handleContentsChange ⟨1, [], ['b']⟩
        ⟨['a'], [⟨0, [], ['a']⟩], [], true⟩).2 = []) :=
  ⟨rfl,
    replay_not_recorded ⟨['a'], [⟨0, [], ['a']⟩], [], true⟩
      ⟨1, [], ['b']⟩ rfl⟩

/-- C8: each operation (edit record, undo, redo, clear) emits exactly the
availability notifications of the histories whose emptiness it changes,
with the boolean reporting whether steps are available afterwards. -/
theorem availability_notifications (st : EditorState) (op : EditOp) :
    (handleContentsChange op st).2 =
      transitionNotifications st (handleContentsChange op st).1 ∧
    (undoS st).2 = transitionNotifications st (undoS st).1 ∧
    (redoS st).2 = transitionNotifications st (redoS st).1 ∧
    (clearUndoRedo st).2 = transitionNotifications st (clearUndoRedo st).1 := by
  obtain ⟨t, u, r, p⟩ := st
  refine ⟨?_, ?_, ?_, ?_⟩
  · cases p <;> cases u <;> cases r <;>
      simp [handleContentsChange, transitionNotifications]
  · cases u with
    | nil => simp [undoS, transitionNotifications]
    | cons op2 rest =>
      cases rest <;> cases r <;>
        simp [undoS, handleContentsChange, transitionNotifications]
  · cases r with
    | nil => simp [redoS, transitionNotifications]
    | cons op2 rest =>
      cases rest <;> cases u <;>
        simp [redoS, handleContentsChange, transitionNotifications]
  · cases u <;> cases r <;> simp [clearUndoRedo, transitionNotifications]

/-- C9: the re-check triggered by a text-changed notification examines and
updates spelling decorations only within the edited span: a decoration on a
span entirely outside the region from `pos` to `pos + added` is present
afterwards exactly when it was present before. -/
theorem slotCheckRange_frame (c : Checker) (t : QString)
    (decos : List (Nat × Nat)) (pos removed added : Nat) (s : Nat × Nat)
    (h : intersects s pos (pos + added) = false) :
    s ∈ slotCheckRange c t decos pos removed added ↔ s ∈ decos := by
  simp [slotCheckRange, checkSpelling, List.mem_filter, List.mem_append, h]

/-- Witness for C9: an edit adding one character at position 0 leaves a
decoration on the far-away span (5, 6) untouched. -/
theorem slotCheckRange_frame_witness :
    (intersects (5, 6) 0 (0 + 1) = false) ∧
    ((5, 6) ∈ slotCheckRange {} ['a'] [(5, 6)] 0 0 1 ↔ (5, 6) ∈ [(5, 6)]) :=
  ⟨by decide, slotCheckRange_frame {} ['a'] [(5, 6)] 0 0 1 (5, 6) (by decide)⟩

/-- C10: a newly constructed `Checker` has spell checking enabled and the UI
options off, and a newly constructed `TextEditChecker` has no no-spelling
property identifier set (-1). -/
theorem checker_defaults :
    getSpellingEnabled {} = true ∧
    getDecodeLanguageCodes {} = false ∧
    getShowCheckSpellingCheckbox {} = false ∧
    noSpellingPropertyId {} = -1 := by
  refine ⟨rfl, rfl, rfl, rfl⟩

end QtSpell
